import Mathlib

/-!
Verification of the listing-aggregation and local-fallback-cache layer of the
Hirely job-board application.

The development shallowly embeds the relevant TypeScript functions of
`src/App.tsx`, `src/server.ts` and `src/services/jobApi.ts`:

* pure data mapping becomes Lean functions;
* `localStorage` becomes an explicit `Store` value threaded through the
  client-side API helpers (state passing);
* a `fetch` whose outcome the surrounding code branches on becomes an
  explicit parameter describing that outcome (`Option`/small inductives);
* nondeterministic inputs of the environment (`Date.now()`, `Math.random()`
  based ids, the random shuffle) become explicit function parameters.
-/

namespace Hirely

/-- Canonical Job record, following the `Job` interface of `src/types.ts`
(plus the `externalSource` field that `src/server.ts` attaches to
externally fetched jobs).  The `type` field is a plain string because the
server-side mappers produce values outside the four-value union as well
(for example "Internship"). -/
structure Job where
  id : String
  title : String
  company : String
  location : String
  type : String
  salary : String
  category : String
  postedAt : String
  description : String
  logo : String
  aiMatchScore : Option Nat := none
  employerId : Option String := none
  documentUrl : Option String := none
  isExternal : Option Bool := none
  externalUrl : Option String := none
  externalSource : Option String := none
deriving DecidableEq

/-- User profile record, following the `UserProfile` interface of
`src/types.ts`.  The `role` union is kept as a plain string. -/
structure UserProfile where
  uid : String
  email : String
  role : String
  name : String
deriving DecidableEq

/-- Application record, following the `Application` interface of
`src/types.ts` (the embedded message list is omitted: no claim concerns
messages).  The `status` field is a plain string because
`apiUpdateApplicationStatus` receives an arbitrary string and casts it. -/
structure Application where
  id : String
  jobId : String
  employerId : Option String := none
  candidateId : String
  candidateName : String
  candidateEmail : String
  appliedAt : Nat
  status : String
  resumeUrl : Option String := none
deriving DecidableEq

/-! ## Local cache store and the combined read/write helpers of `src/App.tsx`

`localStorage` holds three logical tables: jobs (`hirely_posted_jobs`),
applications (`hirely_applications`) and profiles (`hirely_profiles`, a
record keyed by uid, modelled as an association list in insertion order).
A remote `fetch` together with the `res.ok` check either produces a JSON
payload or fails (timeout, network error, non-2xx); the surrounding
`try`/`catch` code only ever distinguishes those two outcomes, so a remote
list call is modelled as `Option (List _)` (`none` = failed / non-ok). -/

/-- State of the browser `localStorage` as seen by the helpers of
`src/App.tsx`, at the level of decoded values. -/
structure Store where
  jobs : List Job
  applications : List Application
  profiles : List (String × UserProfile)
deriving DecidableEq

/-- Merge of `apiGetStoredJobs` (src/App.tsx lines 187-190):
`const dbIds = new Set(dbJobs.map(j => j.id));`
`const merged = [...dbJobs, ...localJobs.filter(j => !dbIds.has(j.id))];` -/
def mergeJobs (dbJobs localJobs : List Job) : List Job :=
  let dbIds := dbJobs.map Job.id
  dbJobs ++ localJobs.filter (fun j => !(dbIds.contains j.id))

/-- Merge of `apiGetStoredApplications` (src/App.tsx lines 115-118), same
shape as `mergeJobs`. -/
def mergeApplications (dbApps localApps : List Application) : List Application :=
  let dbIds := dbApps.map Application.id
  dbApps ++ localApps.filter (fun a => !(dbIds.contains a.id))

/-- The combined local/remote read for jobs, `apiGetStoredJobs`
(src/App.tsx lines 182-195): read the local cache; on a failed or non-ok
remote call return the local list unchanged; on success return the merge.
The function never writes to the cache, so it is a pure function of the
remote outcome and the cached list. -/
def apiGetStoredJobs (remote : Option (List Job)) (localJobs : List Job) : List Job :=
  match remote with
  | none => localJobs
  | some dbJobs => mergeJobs dbJobs localJobs

/-- The combined local/remote read for applications,
`apiGetStoredApplications` (src/App.tsx lines 110-123). -/
def apiGetStoredApplications (remote : Option (List Application))
    (localApps : List Application) : List Application :=
  match remote with
  | none => localApps
  | some dbApps => mergeApplications dbApps localApps

/-- State-passing form of `apiGetStoredJobs`: the body of the source
function contains no `saveLocalJobs` call, so the store component of the
result is the input store. -/
def apiGetStoredJobsS (remote : Option (List Job)) (s : Store) : List Job × Store :=
  (apiGetStoredJobs remote s.jobs, s)

/-- State-passing form of `apiGetStoredApplications`: the body of the
source function contains no `saveLocalApplications` call, so the store
component of the result is the input store. -/
def apiGetStoredApplicationsS (remote : Option (List Application)) (s : Store) :
    List Application × Store :=
  (apiGetStoredApplications remote s.applications, s)

/-- Outcome of a remote write (`fetch` with POST/PUT/DELETE): the source
only distinguishes "resolved" from "threw" (the `catch` branch merely logs
a console warning). -/
inductive RemoteOutcome where
  | ok : RemoteOutcome
  | failed : RemoteOutcome
deriving DecidableEq

/-- The record update of `saveLocalProfile` (src/App.tsx lines 64-68):
`profiles[profile.uid] = profile` on the parsed record — an existing key
keeps its position, a new key is appended (JavaScript object key order). -/
def saveLocalProfile (ps : List (String × UserProfile)) (p : UserProfile) :
    List (String × UserProfile) :=
  if ps.any (fun q => q.1 = p.uid) then
    ps.map (fun q => if q.1 = p.uid then (p.uid, p) else q)
  else ps ++ [(p.uid, p)]

/-- The lookup `local[uid] || null` on the parsed profiles record. -/
def lookupProfile (ps : List (String × UserProfile)) (uid : String) :
    Option UserProfile :=
  (ps.find? (fun q => q.1 = uid)).map Prod.snd

/-- `apiAddPostedJob` (src/App.tsx lines 197-212): always append the job
to the local list first, then attempt the remote POST; the `catch`
branch only logs, so the resulting store does not depend on the remote
outcome. -/
def apiAddPostedJobS (job : Job) (remote : RemoteOutcome) (s : Store) : Store :=
  let s1 : Store := { s with jobs := s.jobs ++ [job] }
  match remote with
  | .ok => s1
  | .failed => s1

/-- `apiDeletePostedJob` (src/App.tsx lines 214-226): filter the job out
of the local list first, then attempt the remote DELETE; the `catch`
branch only logs. -/
def apiDeletePostedJobS (jobId : String) (remote : RemoteOutcome) (s : Store) : Store :=
  let s1 : Store := { s with jobs := s.jobs.filter (fun j => !(j.id = jobId)) }
  match remote with
  | .ok => s1
  | .failed => s1

/-- `apiAddApplication` (src/App.tsx lines 125-139): always append the
application to the local list first, then attempt the remote POST; the
`catch` branch only logs. -/
def apiAddApplicationS (app : Application) (remote : RemoteOutcome) (s : Store) : Store :=
  let s1 : Store := { s with applications := s.applications ++ [app] }
  match remote with
  | .ok => s1
  | .failed => s1

/-- `apiUpdateApplicationStatus` (src/App.tsx lines 141-155): rewrite the
status of the matching application in the local list first, then attempt
the remote PUT; the `catch` branch only logs. -/
def apiUpdateApplicationStatusS (id status : String) (remote : RemoteOutcome)
    (s : Store) : Store :=
  let upd := s.applications.map (fun a => if a.id = id then { a with status := status } else a)
  let s1 : Store := { s with applications := upd }
  match remote with
  | .ok => s1
  | .failed => s1

/-- `apiSaveProfile` (src/App.tsx lines 95-108): always write the profile
into the local record first, then attempt the remote POST; the `catch`
branch only logs. -/
def apiSaveProfileS (p : UserProfile) (remote : RemoteOutcome) (s : Store) : Store :=
  let s1 : Store := { s with profiles := saveLocalProfile s.profiles p }
  match remote with
  | .ok => s1
  | .failed => s1

/-- Outcome of the remote profile read in `apiGetStoredProfile`: the call
either fails (`err`, covering timeout, network error and the `!res.ok`
throw) or succeeds with a JSON body that the code truthiness-tests
(`if (profile)`), so a successful body is an `Option UserProfile`. -/
inductive ProfileRemote where
  | ok : Option UserProfile → ProfileRemote
  | err : ProfileRemote
deriving DecidableEq

/-- `apiGetStoredProfile` (src/App.tsx lines 80-93): on a successful fetch
of a truthy profile, cache it locally (`saveLocalProfile`) and return it;
in every other case fall back to `getLocalProfiles()[uid] || null` and
leave the store unchanged. -/
def apiGetStoredProfileS (uid : String) (remote : ProfileRemote) (s : Store) :
    Option UserProfile × Store :=
  match remote with
  | .ok (some p) =>
      (some p, { s with profiles := saveLocalProfile s.profiles p })
  | .ok none => (lookupProfile s.profiles uid, s)
  | .err => (lookupProfile s.profiles uid, s)

/-! ## External listing fetch (`src/services/jobApi.ts`) and the page-level
aggregation (`fetchJobsAndApps` in `src/App.tsx`, lines 849-890) -/

/-- Outcome of one adapter call as observed by `fetchExternalJobs`
(src/services/jobApi.ts lines 9-36): the `fetch` can throw (`netErr`),
respond non-ok (`httpErr`), or respond ok with a JSON body carrying a
`success` flag and an optional `jobs` array. -/
inductive AdapterResult where
  | netErr : AdapterResult
  | httpErr : AdapterResult
  | payload : Bool → Option (List Job) → AdapterResult
deriving DecidableEq

/-- Jobs contributed by one adapter call: pushed only when the response is
ok and `data.success && data.jobs` is truthy; every failure contributes
nothing (the `catch`/non-ok branches only log). -/
def adapterContribution : AdapterResult → List Job
  | .payload true (some js) => js
  | _ => []

/-- Condition under which the SerpApi fallback request is issued inside
`fetchExternalJobs` (src/services/jobApi.ts line 23):
`if (jobs.length === 0)` after the Adzuna attempt. -/
def serpFallbackInvoked (adzuna : AdapterResult) : Bool :=
  (adapterContribution adzuna).length == 0

/-- `fetchExternalJobs` (src/services/jobApi.ts lines 4-44): try Adzuna
first; only when the Adzuna attempt contributed no jobs, try the SerpApi
backend; finally shuffle.  The final `jobs.sort(() => Math.random() - 0.5)`
reorders the collected list by an environment-chosen permutation, modelled
by the explicit `shuffle` parameter. -/
def fetchExternalJobs (adzuna serp : AdapterResult)
    (shuffle : List Job → List Job) : List Job :=
  let jobs := adapterContribution adzuna
  let jobs := if jobs.length == 0 then jobs ++ adapterContribution serp else jobs
  shuffle jobs

/-- The aggregation step of `fetchJobsAndApps` (src/App.tsx lines 864-872):
`Promise.allSettled([apiGetStoredJobs(), fetchExternalJobs(query)])`, each
outcome resolved independently (a rejected promise contributes `[]`,
though neither function ever rejects), then
`setAllJobs([...postedJobs, ...externalJobs])`. -/
def fetchJobsAndApps (remote : Option (List Job)) (localJobs : List Job)
    (adzuna serp : AdapterResult) (shuffle : List Job → List Job) : List Job :=
  apiGetStoredJobs remote localJobs ++ fetchExternalJobs adzuna serp shuffle

/-! ## A JSON value model and parser, for the raw `localStorage` reads

`getLocalJobs` and `getLocalApplications` (src/App.tsx lines 172-176 and
70-74) run `JSON.parse` on the raw stored string and return whatever value
comes out, unchecked; only a parse error is caught.  To settle claims about
those functions the parse itself is embedded: `Json` is the value model
(a number keeps its source lexeme — no claim depends on numeric value) and
`jsonParse` is a strict JSON parser in the style of `JSON.parse`
(complete grammar for null/true/false, strict number syntax, strings with
the standard escapes, arrays, objects; the whole input must be consumed). -/

inductive Json where
  | null : Json
  | bool : Bool → Json
  | num : String → Json
  | str : String → Json
  | arr : List Json → Json
  | obj : List (String × Json) → Json

/-- Whether a JSON value is an array (`[]`-shaped). -/
def Json.isArr : Json → Bool
  | .arr _ => true
  | _ => false

/-- JSON whitespace characters (space, tab, line feed, carriage return). -/
def jsonWs (c : Char) : Bool :=
  c = ' ' || c = '\t' || c = '\n' || c = '\r'

/-- Drop leading JSON whitespace. -/
def skipWs : List Char → List Char
  | [] => []
  | c :: cs => if jsonWs c then skipWs cs else c :: cs

/-- Hexadecimal digit value, if any. -/
def hexVal (c : Char) : Option Nat :=
  if c.isDigit then some (c.toNat - 48)
  else if 'a' ≤ c && c ≤ 'f' then some (c.toNat - 97 + 10)
  else if 'A' ≤ c && c ≤ 'F' then some (c.toNat - 65 + 10)
  else none

/-- Decoded character of a one-character JSON escape (`\u` is handled
separately, so it is not listed here). -/
def escChar (e : Char) : Option Char :=
  if e = '"' then some '"'
  else if e = '\\' then some '\\'
  else if e = '/' then some '/'
  else if e = 'b' then some (Char.ofNat 8)
  else if e = 'f' then some (Char.ofNat 12)
  else if e = 'n' then some '\n'
  else if e = 'r' then some '\r'
  else if e = 't' then some '\t'
  else none

/-- Parse the body of a JSON string after the opening quote: ordinary
characters must be at least U+0020, escapes are the eight standard ones
plus `\uXXXX` (surrogate pairs are not recombined — no claim depends on
the decoded text of such a string). -/
def parseStringBody : List Char → Option (List Char × List Char)
  | [] => none
  | c :: cs =>
    if c = '"' then some ([], cs)
    else if c = '\\' then
      match cs with
      | [] => none
      | 'u' :: h1 :: h2 :: h3 :: h4 :: cs3 =>
        match hexVal h1, hexVal h2, hexVal h3, hexVal h4 with
        | some a, some b, some c3, some d =>
          match parseStringBody cs3 with
          | some (body, rest2) =>
            some (Char.ofNat (((a * 16 + b) * 16 + c3) * 16 + d) :: body, rest2)
          | none => none
        | _, _, _, _ => none
      | e :: cs2 =>
        match escChar e with
        | none => none
        | some ch =>
          match parseStringBody cs2 with
          | some (body, rest2) => some (ch :: body, rest2)
          | none => none
    else if c.toNat < 32 then none
    else
      match parseStringBody cs with
      | some (body, rest) => some (c :: body, rest)
      | none => none

/-- Longest leading run of decimal digits. -/
def takeDigits : List Char → List Char × List Char
  | [] => ([], [])
  | c :: cs =>
    if c.isDigit then
      let r := takeDigits cs
      (c :: r.1, r.2)
    else ([], c :: cs)

/-- Optional fraction part of a JSON number: either no leading dot, or a
dot followed by at least one digit. -/
def parseFracPart (s : List Char) : Option (List Char × List Char) :=
  match s with
  | '.' :: rest =>
    let (ds, r) := takeDigits rest
    if ds.isEmpty then none else some ('.' :: ds, r)
  | _ => some ([], s)

/-- Optional exponent part of a JSON number: either no leading `e`/`E`, or
`e`/`E`, an optional sign, and at least one digit. -/
def parseExpPart (s : List Char) : Option (List Char × List Char) :=
  match s with
  | e :: rest =>
    if e = 'e' || e = 'E' then
      let (sign, r1) := match rest with
        | '+' :: r => (['+'], r)
        | '-' :: r => (['-'], r)
        | _ => (([] : List Char), rest)
      let (ds, r2) := takeDigits r1
      if ds.isEmpty then none else some (e :: sign ++ ds, r2)
    else some ([], e :: rest)
  | [] => some ([], [])

/-- Parse a JSON number lexeme (strict grammar: optional minus, `0` or a
nonzero-led digit run, optional fraction, optional exponent), returning
the lexeme characters and the remainder. -/
def parseNumberLexeme (s : List Char) : Option (List Char × List Char) :=
  let (neg, s1) := match s with
    | '-' :: rest => (['-'], rest)
    | _ => (([] : List Char), s)
  match s1 with
  | [] => none
  | c :: cs =>
    if !c.isDigit then none
    else
      let (intDigits, s2) :=
        if c = '0' then ([c], cs)
        else takeDigits (c :: cs)
      match parseFracPart s2 with
      | none => none
      | some (fracPart, s3) =>
        match parseExpPart s3 with
        | none => none
        | some (expPart, s4) =>
          some (neg ++ intDigits ++ fracPart ++ expPart, s4)

/-- Match an exact keyword (used for `null`, `true`, `false`). -/
def matchKeyword : List Char → List Char → Option (List Char)
  | [], s => some s
  | _, [] => none
  | k :: ks, c :: cs => if c = k then matchKeyword ks cs else none

mutual

/-- Parse one JSON value (leading whitespace allowed).  The `fuel`
parameter bounds the recursion depth; `jsonParse` supplies enough fuel for
any input of the given length. -/
def parseValue : Nat → List Char → Option (Json × List Char)
  | 0, _ => none
  | fuel + 1, s =>
    match skipWs s with
    | [] => none
    | c :: cs =>
      if c = 'n' then
        (matchKeyword ['u', 'l', 'l'] cs).map (fun r => (Json.null, r))
      else if c = 't' then
        (matchKeyword ['r', 'u', 'e'] cs).map (fun r => (Json.bool true, r))
      else if c = 'f' then
        (matchKeyword ['a', 'l', 's', 'e'] cs).map (fun r => (Json.bool false, r))
      else if c = '"' then
        (parseStringBody cs).map (fun p => (Json.str (String.mk p.1), p.2))
      else if c = Char.ofNat 91 then
        match parseArrayItems fuel true cs with
        | some (items, r) => some (Json.arr items, r)
        | none => none
      else if c = Char.ofNat 123 then
        match parseObjectMembers fuel true cs with
        | some (members, r) => some (Json.obj members, r)
        | none => none
      else
        (parseNumberLexeme (c :: cs)).map (fun p => (Json.num (String.mk p.1), p.2))

/-- Parse the items of a JSON array after the opening bracket (`first`
marks whether no item has been consumed yet, so that `[]` is accepted but
`[1,]` and `[,1]` are not). -/
def parseArrayItems : Nat → Bool → List Char → Option (List Json × List Char)
  | 0, _, _ => none
  | fuel + 1, first, s =>
    match skipWs s with
    | [] => none
    | c :: cs =>
      if c = Char.ofNat 93 then
        if first then some ([], cs) else none
      else
        match parseValue fuel (c :: cs) with
        | none => none
        | some (v, r) =>
          match skipWs r with
          | c2 :: cs2 =>
            if c2 = ',' then
              match parseArrayItems fuel false cs2 with
              | some ([], _) => none
              | some (vs, r2) => some (v :: vs, r2)
              | none => none
            else if c2 = Char.ofNat 93 then some ([v], cs2)
            else none
          | [] => none

/-- Parse the members of a JSON object after the opening brace. -/
def parseObjectMembers : Nat → Bool → List Char →
    Option (List (String × Json) × List Char)
  | 0, _, _ => none
  | fuel + 1, first, s =>
    match skipWs s with
    | [] => none
    | c :: cs =>
      if c = Char.ofNat 125 then
        if first then some ([], cs) else none
      else if c = '"' then
        match parseStringBody cs with
        | none => none
        | some (key, r) =>
          match skipWs r with
          | ':' :: r2 =>
            match parseValue fuel r2 with
            | none => none
            | some (v, r3) =>
              match skipWs r3 with
              | c2 :: cs2 =>
                if c2 = ',' then
                  match parseObjectMembers fuel false cs2 with
                  | some ([], _) => none
                  | some (ms, r4) => some ((String.mk key, v) :: ms, r4)
                  | none => none
                else if c2 = Char.ofNat 125 then some ([(String.mk key, v)], cs2)
                else none
              | [] => none
          | _ => none
      else none

end

/-- Model of `JSON.parse`: parse one value and require the rest of the
input to be whitespace; `none` models a thrown `SyntaxError`. -/
def jsonParse (s : String) : Option Json :=
  match parseValue (2 * s.length + 2) s.data with
  | some (v, rest) => if skipWs rest = [] then some v else none
  | none => none

/-- Raw-string level model of `getLocalJobs` (src/App.tsx lines 172-176):
`try { return JSON.parse(localStorage.getItem(LOCAL_JOBS_KEY) || '[]'); }`
`catch { return []; }` — a missing key (`none`) and the empty string are
both falsy, so `'[]'` is parsed instead; a parse error is caught and `[]`
returned; a successfully parsed value is returned as-is, unchecked. -/
def getLocalJobsRaw (stored : Option String) : Json :=
  let raw := match stored with
    | none => "[]"
    | some s => if s = "" then "[]" else s
  match jsonParse raw with
  | some v => v
  | none => Json.arr []

/-- Raw-string level model of `getLocalApplications` (src/App.tsx lines
70-74), identical to `getLocalJobsRaw` but for the applications key. -/
def getLocalApplicationsRaw (stored : Option String) : Json :=
  let raw := match stored with
    | none => "[]"
    | some s => if s = "" then "[]" else s
  match jsonParse raw with
  | some v => v
  | none => Json.arr []

/-! ## The salary regex of `extractSalary` (src/server.ts lines 408-415)

The pattern
`/(?:₹|Rs\.?|INR|USD|\$)\s*[\d,]+(?:\s*[-–to]+\s*(?:₹|Rs\.?|INR|USD|\$)?\s*[\d,]+)?(?:\s*(?:per|\/|p\.?)\s*(?:month|annum|year|hr|hour))?/i`
is embedded directly as a backtracking matcher in continuation-passing
style: alternatives are tried left to right, quantified pieces longest
first, exactly the preference order of the JavaScript engine, and
`String.prototype.match` (no `g` flag) returns the leftmost match. -/

/-- Case folding for the `i` flag (ASCII letters; every other character
in the pattern is caseless). -/
def lowerCh (c : Char) : Char :=
  if 'A' ≤ c && c ≤ 'Z' then Char.ofNat (c.toNat + 32) else c

/-- Continuation of a partial match: receives the remaining input and
returns the remainder after the whole pattern, if the rest matches. -/
abbrev MCont := List Char → Option (List Char)

/-- Match a literal case-insensitively, then continue. -/
def mLit : List Char → List Char → MCont → Option (List Char)
  | [], s, k => k s
  | _, [], _ => none
  | p :: ps, c :: cs, k => if lowerCh c = lowerCh p then mLit ps cs k else none

/-- Greedily match an optional literal (try with it first, as `X?` does). -/
def mOptLit (pat : List Char) (s : List Char) (k : MCont) : Option (List Char) :=
  match mLit pat s k with
  | some r => some r
  | none => k s

/-- Length of the longest leading run of characters in a class. -/
def classRun (cls : Char → Bool) : List Char → Nat
  | [] => 0
  | c :: cs => if cls c then classRun cls cs + 1 else 0

/-- Try the continuation after dropping `n, n-1, …, 1` characters (the
backtracking of a greedy `+` over a character class). -/
def tryDropsPos (s : List Char) (k : MCont) : Nat → Option (List Char)
  | 0 => none
  | n + 1 =>
    match k (s.drop (n + 1)) with
    | some r => some r
    | none => tryDropsPos s k n

/-- Greedy `cls+`: longest leading class run first, at least one character. -/
def mPlusClass (cls : Char → Bool) (s : List Char) (k : MCont) : Option (List Char) :=
  tryDropsPos s k (classRun cls s)

/-- Greedy `cls*`: longest leading class run first, possibly none. -/
def mStarClass (cls : Char → Bool) (s : List Char) (k : MCont) : Option (List Char) :=
  match tryDropsPos s k (classRun cls s) with
  | some r => some r
  | none => k s

/-- The `\s` class (JavaScript whitespace; the common ASCII members). -/
def wsClass (c : Char) : Bool :=
  c = ' ' || c = '\t' || c = '\n' || c = '\r' || c = Char.ofNat 11 || c = Char.ofNat 12

/-- The `[\d,]` class. -/
def numClass (c : Char) : Bool := c.isDigit || c = ','

/-- The `[-–to]` class under the `i` flag: hyphen, en dash, `t`, `o`. -/
def dashToClass (c : Char) : Bool :=
  c = '-' || c = '–' || lowerCh c = 't' || lowerCh c = 'o'

/-- The currency alternation `(?:₹|Rs\.?|INR|USD|\$)`, alternatives in
source order, `Rs\.?` greedy on the dot. -/
def mCurrency (s : List Char) (k : MCont) : Option (List Char) :=
  match mLit ['₹'] s k with
  | some r => some r
  | none =>
    match mLit ['R', 's'] s (fun r => mOptLit ['.'] r k) with
    | some r => some r
    | none =>
      match mLit ['I', 'N', 'R'] s k with
      | some r => some r
      | none =>
        match mLit ['U', 'S', 'D'] s k with
        | some r => some r
        | none => mLit ['$'] s k

/-- The optional range tail `(?:\s*[-–to]+\s*(?:₹|Rs\.?|INR|USD|\$)?\s*[\d,]+)?`
(greedy: try to match the group, fall through without it). -/
def mRangeTail (s : List Char) (k : MCont) : Option (List Char) :=
  let inner : Option (List Char) :=
    mStarClass wsClass s (fun s1 =>
      mPlusClass dashToClass s1 (fun s2 =>
        mStarClass wsClass s2 (fun s3 =>
          let afterCur : MCont := fun s4 =>
            mStarClass wsClass s4 (fun s5 => mPlusClass numClass s5 k)
          match mCurrency s3 afterCur with
          | some r => some r
          | none => afterCur s3)))
  match inner with
  | some r => some r
  | none => k s

/-- The alternation `(?:per|\/|p\.?)`. -/
def mPer (s : List Char) (k : MCont) : Option (List Char) :=
  match mLit ['p', 'e', 'r'] s k with
  | some r => some r
  | none =>
    match mLit ['/'] s k with
    | some r => some r
    | none => mLit ['p'] s (fun r => mOptLit ['.'] r k)

/-- The alternation `(?:month|annum|year|hr|hour)`. -/
def mPeriod (s : List Char) (k : MCont) : Option (List Char) :=
  match mLit ['m', 'o', 'n', 't', 'h'] s k with
  | some r => some r
  | none =>
    match mLit ['a', 'n', 'n', 'u', 'm'] s k with
    | some r => some r
    | none =>
      match mLit ['y', 'e', 'a', 'r'] s k with
      | some r => some r
      | none =>
        match mLit ['h', 'r'] s k with
        | some r => some r
        | none => mLit ['h', 'o', 'u', 'r'] s k

/-- The optional period tail `(?:\s*(?:per|\/|p\.?)\s*(?:month|annum|year|hr|hour))?`. -/
def mPeriodTail (s : List Char) (k : MCont) : Option (List Char) :=
  let inner : Option (List Char) :=
    mStarClass wsClass s (fun s1 =>
      mPer s1 (fun s2 =>
        mStarClass wsClass s2 (fun s3 => mPeriod s3 k)))
  match inner with
  | some r => some r
  | none => k s

/-- Match the whole salary pattern at the start of `s`, returning the
remainder after the match. -/
def matchSalaryAt (s : List Char) : Option (List Char) :=
  mCurrency s (fun s1 =>
    mStarClass wsClass s1 (fun s2 =>
      mPlusClass numClass s2 (fun s3 =>
        mRangeTail s3 (fun s4 =>
          mPeriodTail s4 some))))

/-- Leftmost match of the salary pattern in `s` (the semantics of
`desc.match(...)` without the `g` flag), returning the matched substring. -/
def findSalary : List Char → Option String
  | [] => none
  | c :: cs =>
    match matchSalaryAt (c :: cs) with
    | some rest =>
      some (String.mk ((c :: cs).take ((c :: cs).length - rest.length)))
    | none => findSalary cs

/-- Truthiness of an optional string field (JavaScript: absent and `""`
are falsy). -/
def truthyStr (o : Option String) : Bool := !(o.getD "" == "")

/-- `extractSalary` (src/server.ts lines 408-415): prefer the provider's
`detected_extensions.salary` when truthy; else the first salary-pattern
match in `job.description || ''`; else `"Not specified"`. -/
def extractSalary (salaryExt : Option String) (description : Option String) : String :=
  if truthyStr salaryExt then salaryExt.getD ""
  else
    match findSalary (description.getD "").data with
    | some m => m
    | none => "Not specified"

/-! ## Remaining helpers of the SerpApi route (src/server.ts) -/

/-- Whether `needle` occurs at the start of `hay` (exact characters). -/
def startsWithChars : List Char → List Char → Bool
  | [], _ => true
  | _, [] => false
  | n :: ns, c :: cs => n = c && startsWithChars ns cs

/-- JavaScript `hay.includes(needle)` on character lists. -/
def includesChars (needle : List Char) : List Char → Bool
  | [] => needle.isEmpty
  | c :: cs => startsWithChars needle (c :: cs) || includesChars needle cs

/-- JavaScript `hay.includes(needle)` on strings. -/
def strIncludes (hay needle : String) : Bool :=
  includesChars needle.data hay.data

/-- JavaScript `toLowerCase` (ASCII range, which is all the code compares). -/
def toLowerStr (s : String) : String :=
  String.mk (s.data.map lowerCh)

/-- `detectJobType` (src/server.ts lines 384-396). -/
def detectJobType (scheduleType : Option String) (title description : Option String) :
    String :=
  let descr := toLowerStr (description.getD "")
  let t := toLowerStr (title.getD "")
  if truthyStr scheduleType then scheduleType.getD ""
  else if strIncludes t "intern" then "Internship"
  else if strIncludes descr "full-time" || strIncludes descr "full time" then "Full-time"
  else if strIncludes descr "part-time" || strIncludes descr "part time" then "Part-time"
  else if strIncludes descr "contract" then "Contract"
  else if strIncludes descr "remote" then "Remote"
  else "Full-time"

/-- `detectCategory` (src/server.ts lines 417-427). -/
def detectCategory (title : String) : String :=
  let t := toLowerStr title
  if strIncludes t "engineer" || strIncludes t "developer" || strIncludes t "software" ||
      strIncludes t "devops" || strIncludes t "backend" || strIncludes t "frontend" ||
      strIncludes t "full stack" then "Engineering"
  else if strIncludes t "design" || strIncludes t "ui" || strIncludes t "ux" ||
      strIncludes t "graphic" then "Design"
  else if strIncludes t "market" || strIncludes t "seo" || strIncludes t "content" ||
      strIncludes t "social media" then "Marketing"
  else if strIncludes t "sales" || strIncludes t "business development" ||
      strIncludes t "account" then "Sales"
  else if strIncludes t "product" || strIncludes t "project manager" ||
      strIncludes t "scrum" then "Product"
  else if strIncludes t "data" || strIncludes t "analyst" ||
      strIncludes t "machine learning" || strIncludes t "ai" then "Engineering"
  else if strIncludes t "intern" then "Engineering"
  else "Other"

/-- Remove the first occurrence of `pat` from `s`
(JavaScript `s.replace(pat, '')` with a string pattern). -/
def removeFirstChars (pat : List Char) : List Char → List Char
  | [] => []
  | c :: cs =>
    if startsWithChars pat (c :: cs) then (c :: cs).drop pat.length
    else c :: removeFirstChars pat cs

/-- UTF-8 bytes of a code point. -/
def utf8Bytes (n : Nat) : List Nat :=
  if n < 128 then [n]
  else if n < 2048 then [192 + n / 64, 128 + n % 64]
  else if n < 65536 then [224 + n / 4096, 128 + (n / 64) % 64, 128 + n % 64]
  else [240 + n / 262144, 128 + (n / 4096) % 64, 128 + (n / 64) % 64, 128 + n % 64]

/-- Uppercase hexadecimal digit. -/
def hexDigit (n : Nat) : Char :=
  if n < 10 then Char.ofNat (48 + n) else Char.ofNat (65 + n - 10)

/-- Characters `encodeURIComponent` leaves unescaped. -/
def uriUnreserved (c : Char) : Bool :=
  c.isAlphanum || c = '-' || c = '_' || c = '.' || c = '!' || c = '~' ||
    c = '*' || c = Char.ofNat 39 || c = '(' || c = ')'

/-- JavaScript `encodeURIComponent`: unreserved characters kept, all
others percent-encoded byte by byte. -/
def encodeURIComponent (s : String) : String :=
  String.mk (s.data.flatMap (fun c =>
    if uriUnreserved c then [c]
    else (utf8Bytes c.toNat).flatMap (fun b => ['%', hexDigit (b / 16), hexDigit (b % 16)])))

/-- One raw SerpApi job result, with the fields the mapper reads
(`apply_options` keeps only each option's `link`). -/
structure SerpRawJob where
  title : Option String := none
  company_name : Option String := none
  location : Option String := none
  description : Option String := none
  share_link : Option String := none
  via : Option String := none
  thumbnail : Option String := none
  apply_options : List (Option String) := []
  schedule_type : Option String := none
  posted_at : Option String := none
  salary : Option String := none
deriving DecidableEq

/-- The per-result mapping of the `/api/jobs/search` handler
(src/server.ts lines 192-215).  `newId` stands for the synthetic
`serp_<Date.now()>_<random>` id, which is supplied by the environment;
`reqLocation` is the `location` query parameter after its `|| 'India'`
default. -/
def mapSerpJob (newId : String) (reqLocation : String) (job : SerpRawJob) : Job :=
  let applyUrl :=
    match job.apply_options with
    | [] => job.share_link.getD ""
    | firstOpt :: _ =>
      if truthyStr firstOpt then firstOpt.getD "" else job.share_link.getD ""
  let source :=
    if truthyStr job.via then String.mk (removeFirstChars "via ".data (job.via.getD "").data)
    else "Google Jobs"
  { id := newId
    title := if truthyStr job.title then job.title.getD "" else "Untitled"
    company := if truthyStr job.company_name then job.company_name.getD "" else "Unknown Company"
    location := if truthyStr job.location then job.location.getD "" else reqLocation
    type := detectJobType job.schedule_type job.title job.description
    salary := extractSalary job.salary job.description
    category := detectCategory (job.title.getD "")
    postedAt := if truthyStr job.posted_at then job.posted_at.getD "" else "Recently"
    description := if truthyStr job.description then job.description.getD ""
      else "No description available."
    logo := if truthyStr job.thumbnail then job.thumbnail.getD ""
      else "https://ui-avatars.com/api/?name=" ++
        encodeURIComponent (if truthyStr job.company_name then job.company_name.getD "" else "C") ++
        "&background=6366f1&color=fff&size=100"
    isExternal := some true
    externalUrl := some applyUrl
    externalSource := some source }

/-! ## The pagination loop of `/api/jobs/search` (src/server.ts lines 158-234) -/

/-- Provider response to one paginated SerpApi request: a non-success
HTTP response (`fail`), or a success whose body carries
`jobs_results || []` and `serpapi_pagination?.next_page_token || null`
(a missing or empty token is `none`). -/
inductive SerpPage where
  | fail : SerpPage
  | ok : List SerpRawJob → Option String → SerpPage
deriving DecidableEq

/-- Raw jobs carried by one provider response. -/
def serpPageJobs : SerpPage → List SerpRawJob
  | .fail => []
  | .ok js _ => js

/-- The `for (let page = 0; page < maxPages; page++)` loop of the handler:
`provider i` is the response to the `i`-th request, `token` the
continuation token sent with the current request.  Returns the raw jobs
collected and the token sent with each issued request, in order.  On a
non-success response the loop breaks keeping what was collected; after a
success it continues only when a next-page token is present and budget
remains. -/
def searchLoop : (Nat → SerpPage) → Nat → Nat → Option String →
    List SerpRawJob × List (Option String)
  | _, _, 0, _ => ([], [])
  | provider, i, b + 1, token =>
    match provider i with
    | .fail => ([], [token])
    | .ok jobs none => (jobs, [token])
    | .ok jobs (some t) =>
      (jobs ++ (searchLoop provider (i + 1) b (some t)).1,
        token :: (searchLoop provider (i + 1) b (some t)).2)

/-- The handler's `maxPages`:
`Math.min(parseInt(req.query.pages as string) || 1, 3)` — a missing or
unparsable parameter (`parseInt` gives `NaN`) and the value `0` are falsy
and default to 1. -/
def effectiveMaxPages (pagesParam : Option Int) : Int :=
  min (match pagesParam with
    | none => 1
    | some p => if p = 0 then 1 else p) 3

/-- The full pagination run of the handler: first request carries no
token; the budget is `effectiveMaxPages` (a negative budget runs the loop
zero times, as `page < maxPages` does). -/
def serpSearchRaw (provider : Nat → SerpPage) (pagesParam : Option Int) :
    List SerpRawJob × List (Option String) :=
  searchLoop provider 0 (effectiveMaxPages pagesParam).toNat none

/-- The `jobs` array of the handler's response: every collected raw job,
in collection order, mapped through `mapSerpJob` with a fresh synthetic id
from the environment (`idGen`). -/
def serpHandlerJobs (idGen : Nat → String) (reqLocation : String)
    (provider : Nat → SerpPage) (pagesParam : Option Int) : List Job :=
  ((serpSearchRaw provider pagesParam).1.enum).map
    (fun p => mapSerpJob (idGen p.1) reqLocation p.2)

/-! ## The Adzuna salary mapping (src/server.ts lines 281-284) -/

/-- Pairs of digits of a little-endian digit list. -/
def chunksOfTwo : List Char → List (List Char)
  | [] => []
  | [a] => [[a]]
  | a :: b :: rest => [a, b] :: chunksOfTwo rest

/-- `Number.prototype.toLocaleString('en-IN')` for a natural number:
the last three digits form one group, the remaining digits are grouped in
pairs, groups separated by commas (for example 1234567 ↦ "12,34,567"). -/
def toLocaleStringEnIN (n : Nat) : String :=
  let ds := (toString n).data
  if ds.length ≤ 3 then toString n
  else
    let rds := ds.reverse
    let groups := rds.take 3 :: chunksOfTwo (rds.drop 3)
    String.mk (List.reverse (String.intercalate "," (groups.map String.mk)).data)

/-- Truthiness of an optional numeric field (JavaScript: absent — the
property reads as `undefined` — and `0` are falsy).  Adzuna salaries are
nonnegative, so the numeric value is modelled as a natural number, on
which `Math.round` is the identity. -/
def truthyNum (o : Option Nat) : Bool := !(o.getD 0 == 0)

/-- The salary expression of the `/api/jobs/adzuna` handler
(src/server.ts lines 281-284):
`job.salary_min && job.salary_max ? range : job.salary_min ? min+ : 'Not specified'`. -/
def adzunaSalary (salary_min salary_max : Option Nat) : String :=
  if truthyNum salary_min && truthyNum salary_max then
    "₹" ++ toLocaleStringEnIN (salary_min.getD 0) ++ " - ₹" ++
      toLocaleStringEnIN (salary_max.getD 0)
  else if truthyNum salary_min then "₹" ++ toLocaleStringEnIN (salary_min.getD 0) ++ "+"
  else "Not specified"

/-! ## Sample data for concrete scenarios -/

/-- Sample job: the remote copy of id "r1". -/
def jobR1remote : Job :=
  { id := "r1", title := "Remote copy", company := "Acme", location := "Pune",
    type := "Full-time", salary := "₹1", category := "Engineering",
    postedAt := "1d", description := "remote row", logo := "r.png" }

/-- Sample job: a stale local copy of id "r1", differing from the remote
copy in its payload. -/
def jobR1local : Job :=
  { jobR1remote with title := "Local copy", description := "local row" }

/-- Sample job: a purely local job with id "l1". -/
def jobL1 : Job :=
  { jobR1remote with id := "l1", title := "Local only" }

/-- Sample application with id "a-r1". -/
def appR1 : Application :=
  { id := "a-r1", jobId := "r1", candidateId := "u1", candidateName := "N",
    candidateEmail := "n@x", appliedAt := 1, status := "pending" }

/-- Sample application with id "a-l1", absent from the remote list. -/
def appL1 : Application :=
  { appR1 with id := "a-l1", status := "reviewed" }

/-- Sample store used in concrete scenarios. -/
def sampleStore : Store :=
  { jobs := [jobR1local, jobL1], applications := [appR1, appL1], profiles := [] }

/-- Sample user profile. -/
def profileU1 : UserProfile :=
  { uid := "u1", email := "u1@x", role := "candidate", name := "U One" }

/-- Sample raw SerpApi result. -/
def serpRawPay : SerpRawJob :=
  { title := some "Backend Developer", company_name := some "Acme",
    description := some "Pay: Rs. 50,000 - Rs. 70,000 per month" }

/-- Sample SerpApi provider: the first request succeeds with one job and
a continuation token, every later request fails. -/
def sampleProvider : Nat → SerpPage := fun k =>
  if k = 0 then SerpPage.ok [serpRawPay] (some "tok2") else SerpPage.fail

/-! ## Theorems -/

/-- Helper: an element of the local list whose id the remote id set does
not contain occurs in the merged list exactly as often as in the local
list. -/
theorem count_mergeJobs_local (R L : List Job) (l : Job) (_hl : l ∈ L)
    (hid : ((R.map Job.id).contains l.id) = false) :
    (mergeJobs R L).count l = L.count l := by
  have hnotR : l ∉ R := by
    intro hmem
    have hm : l.id ∈ R.map Job.id := List.mem_map_of_mem Job.id hmem
    have hc : ((R.map Job.id).contains l.id) = true := List.elem_eq_true_of_mem hm
    exact Bool.noConfusion (hc.symm.trans hid)
  have hcount0 : R.count l = 0 := List.count_eq_zero.mpr hnotR
  have hp : (fun j => !((R.map Job.id).contains j.id)) l = true := by
    show (!((R.map Job.id).contains l.id)) = true
    rw [hid]
    rfl
  have hfc : (L.filter (fun j => !((R.map Job.id).contains j.id))).count l = L.count l :=
    List.count_filter hp
  show (R ++ L.filter (fun j => !((R.map Job.id).contains j.id))).count l = L.count l
  rw [List.count_append, hcount0, hfc, Nat.zero_add]

/-- Helper: same as `count_mergeJobs_local` for applications. -/
theorem count_mergeApplications_local (R L : List Application) (l : Application)
    (_hl : l ∈ L) (hid : ((R.map Application.id).contains l.id) = false) :
    (mergeApplications R L).count l = L.count l := by
  have hnotR : l ∉ R := by
    intro hmem
    have hm : l.id ∈ R.map Application.id := List.mem_map_of_mem Application.id hmem
    have hc : ((R.map Application.id).contains l.id) = true := List.elem_eq_true_of_mem hm
    exact Bool.noConfusion (hc.symm.trans hid)
  have hcount0 : R.count l = 0 := List.count_eq_zero.mpr hnotR
  have hp : (fun a => !((R.map Application.id).contains a.id)) l = true := by
    show (!((R.map Application.id).contains l.id)) = true
    rw [hid]
    rfl
  have hfc : (L.filter (fun a => !((R.map Application.id).contains a.id))).count l = L.count l :=
    List.count_filter hp
  show (R ++ L.filter (fun a => !((R.map Application.id).contains a.id))).count l = L.count l
  rw [List.count_append, hcount0, hfc, Nat.zero_add]

/-- C1.  The combined local/remote read, when the remote call succeeds
with list `R` against local cache `L`, returns exactly `R` followed by
the elements of `L` whose id does not occur in `R`, in their original
orders; every remote entry (hence every remote id) is in the result; a
local entry whose id is absent from `R` occurs in the result exactly as
often as in `L` (so an entry cached once appears exactly once); and in
the concrete collision scenario remote `[r1]` / local `[r1, l1]` the
result is `[r1, l1]` with `r1` taken from the remote list.  Stated for
jobs (`apiGetStoredJobs`) and applications (`apiGetStoredApplications`). -/
theorem combined_read_returns_remote_then_new_local (R L : List Job)
    (Ra La : List Application) :
    apiGetStoredJobs (some R) L =
      R ++ L.filter (fun j => !((R.map Job.id).contains j.id)) ∧
    apiGetStoredApplications (some Ra) La =
      Ra ++ La.filter (fun a => !((Ra.map Application.id).contains a.id)) ∧
    (∀ j ∈ R, j ∈ apiGetStoredJobs (some R) L) ∧
    (∀ i ∈ R.map Job.id, i ∈ (apiGetStoredJobs (some R) L).map Job.id) ∧
    (∀ l ∈ L, ((R.map Job.id).contains l.id) = false →
      (apiGetStoredJobs (some R) L).count l = L.count l) ∧
    (∀ a ∈ Ra, a ∈ apiGetStoredApplications (some Ra) La) ∧
    (∀ la ∈ La, ((Ra.map Application.id).contains la.id) = false →
      (apiGetStoredApplications (some Ra) La).count la = La.count la) ∧
    apiGetStoredJobs (some [jobR1remote]) [jobR1local, jobL1] = [jobR1remote, jobL1] := by
  refine ⟨rfl, rfl, ?_, ?_, ?_, ?_, ?_, ?_⟩
  · intro j hj
    exact List.mem_append_left _ hj
  · intro i hi
    simp only [apiGetStoredJobs, mergeJobs, List.map_append, List.mem_append]
    exact Or.inl hi
  · intro l hl hid
    exact count_mergeJobs_local R L l hl hid
  · intro a ha
    exact List.mem_append_left _ ha
  · intro la hla hid
    exact count_mergeApplications_local Ra La la hla hid
  · decide

/-- C1 witness: the theorem applied at the concrete collision scenario,
discharging the inner hypotheses there (the stale local copy of "r1" is
filtered out, the remote copy and the purely local entry each appear
exactly once). -/
theorem combined_read_returns_remote_then_new_local_witness :
    jobR1remote ∈ apiGetStoredJobs (some [jobR1remote]) [jobR1local, jobL1] ∧
    (apiGetStoredJobs (some [jobR1remote]) [jobR1local, jobL1]).count jobL1 =
      ([jobR1local, jobL1] : List Job).count jobL1 ∧
    (apiGetStoredApplications (some [appR1]) [appL1]).count appL1 =
      ([appL1] : List Application).count appL1 := by
  obtain ⟨-, -, hmem, -, hcnt, -, hcnta, -⟩ :=
    combined_read_returns_remote_then_new_local [jobR1remote] [jobR1local, jobL1]
      [appR1] [appL1]
  exact ⟨hmem jobR1remote (by decide), hcnt jobL1 (by decide) (by decide),
    hcnta appL1 (by decide) (by decide)⟩

/-- C2 counterexample: the claim says a successful combined read writes
the fetched remote list into the local cache, so that afterwards the
cache equals the remote result.  Concretely, with cached jobs
`[jobR1local, jobL1]` and a successful remote read returning
`[jobR1remote]`, the cache after `apiGetStoredJobs` still holds
`[jobR1local, jobL1]`, not the remote list. -/
theorem combined_read_no_cache_refresh_counterexample :
    ((apiGetStoredJobsS (some [jobR1remote]) sampleStore).2).jobs ≠ [jobR1remote] ∧
    ((apiGetStoredApplicationsS (some [appR1]) sampleStore).2).applications ≠ [appR1] := by
  decide

/-- C2 amended.  The combined reads for jobs and applications never write
to the Local Cache Store at all: after any `apiGetStoredJobs` or
`apiGetStoredApplications` call — successful remote or not — the whole
store is unchanged (in particular the cached list for the entity is the
pre-call one, not the remote result). -/
theorem combined_read_leaves_cache_unchanged (remoteJ : Option (List Job))
    (remoteA : Option (List Application)) (s : Store) :
    (apiGetStoredJobsS remoteJ s).2 = s ∧
    (apiGetStoredApplicationsS remoteA s).2 = s := by
  exact ⟨rfl, rfl⟩

/-- C3.  Every create/update/delete helper writes its local update first
and swallows a remote failure: the resulting store does not depend on the
remote outcome, and equals the local update of the input store (the
operation is total, so it "completes without throwing").  Stated for all
five helpers: `apiAddPostedJob`, `apiAddApplication`,
`apiUpdateApplicationStatus`, `apiDeletePostedJob`, `apiSaveProfile`. -/
theorem write_ops_local_first_swallow_remote (s : Store) (job : Job)
    (app : Application) (id status jobId : String) (p : UserProfile)
    (r : RemoteOutcome) :
    apiAddPostedJobS job r s = { s with jobs := s.jobs ++ [job] } ∧
    apiAddApplicationS app r s = { s with applications := s.applications ++ [app] } ∧
    apiUpdateApplicationStatusS id status r s = { s with applications := s.applications.map (fun a => if a.id = id then { a with status := status } else a) } ∧
    apiDeletePostedJobS jobId r s = { s with jobs := s.jobs.filter (fun j => !(j.id = jobId)) } ∧
    apiSaveProfileS p r s = { s with profiles := saveLocalProfile s.profiles p } ∧
    apiAddPostedJobS job RemoteOutcome.ok s = apiAddPostedJobS job RemoteOutcome.failed s ∧
    apiAddApplicationS app RemoteOutcome.ok s = apiAddApplicationS app RemoteOutcome.failed s ∧
    apiUpdateApplicationStatusS id status RemoteOutcome.ok s =
      apiUpdateApplicationStatusS id status RemoteOutcome.failed s ∧
    apiDeletePostedJobS jobId RemoteOutcome.ok s =
      apiDeletePostedJobS jobId RemoteOutcome.failed s ∧
    apiSaveProfileS p RemoteOutcome.ok s = apiSaveProfileS p RemoteOutcome.failed s := by
  cases r <;>
    exact ⟨rfl, rfl, rfl, rfl, rfl, rfl, rfl, rfl, rfl, rfl⟩

/-- C8.  The combined read is deterministic and does not change the state
it reads from: two consecutive reads with the remote store reachable and
returning the same list both times yield identical merged lists, for jobs
and for applications. -/
theorem combined_read_idempotent (R : List Job) (Ra : List Application) (s : Store) :
    (apiGetStoredJobsS (some R) ((apiGetStoredJobsS (some R) s).2)).1 =
      (apiGetStoredJobsS (some R) s).1 ∧
    (apiGetStoredJobsS (some R) ((apiGetStoredJobsS (some R) s).2)).2 = s ∧
    (apiGetStoredApplicationsS (some Ra) ((apiGetStoredApplicationsS (some Ra) s).2)).1 =
      (apiGetStoredApplicationsS (some Ra) s).1 ∧
    (apiGetStoredApplicationsS (some Ra) ((apiGetStoredApplicationsS (some Ra) s).2)).2 = s := by
  exact ⟨rfl, rfl, rfl, rfl⟩

/-- Helper: after `saveLocalProfile`, looking up the saved profile's own
uid finds exactly the saved profile (case where some existing key
matches). -/
theorem lookupProfile_map_set (p : UserProfile) :
    ∀ ps : List (String × UserProfile), ps.any (fun q => q.1 = p.uid) = true →
      lookupProfile (ps.map (fun q => if q.1 = p.uid then (p.uid, p) else q)) p.uid = some p := by
  intro ps
  induction ps with
  | nil => intro h; exact Bool.noConfusion h
  | cons q qs ih =>
    intro h
    by_cases hq : q.1 = p.uid
    · simp [lookupProfile, List.find?, hq]
    · have hqs : qs.any (fun r => r.1 = p.uid) = true := by
        simpa [List.any_cons, hq] using h
      have := ih hqs
      simpa [lookupProfile, List.find?, hq] using this

/-- Helper: after `saveLocalProfile`, looking up the saved profile's own
uid finds exactly the saved profile (case where no existing key
matches, so the binding is appended). -/
theorem lookupProfile_append_set (p : UserProfile) :
    ∀ ps : List (String × UserProfile), ps.any (fun q => q.1 = p.uid) = false →
      lookupProfile (ps ++ [(p.uid, p)]) p.uid = some p := by
  intro ps
  induction ps with
  | nil => intro _; simp [lookupProfile, List.find?]
  | cons q qs ih =>
    intro h
    have hq : (q.1 = p.uid) = False := by
      by_contra hne
      have : q.1 = p.uid := by
        by_contra hx
        exact hne (eq_false hx)
      simp [List.any_cons, this] at h
    have hqs : qs.any (fun r => r.1 = p.uid) = false := by
      simpa [List.any_cons, hq] using h
    have := ih hqs
    simpa [lookupProfile, List.find?, hq] using this

/-- Helper: `saveLocalProfile` followed by a lookup of the saved
profile's uid returns that profile. -/
theorem lookupProfile_saveLocalProfile (ps : List (String × UserProfile))
    (p : UserProfile) :
    lookupProfile (saveLocalProfile ps p) p.uid = some p := by
  unfold saveLocalProfile
  by_cases h : ps.any (fun q => q.1 = p.uid) = true
  · simp only [h, if_pos]
    exact lookupProfile_map_set p ps h
  · have hf : ps.any (fun q => q.1 = p.uid) = false := by
      exact Bool.not_eq_true _ ▸ (by simpa using h)
    simp only [hf]
    simp only [Bool.false_eq_true, if_neg, ite_false]
    exact lookupProfile_append_set p ps hf

/-- C9.  The profile read, unlike the jobs/applications reads, refreshes
the local cache: a successful remote fetch of a (truthy) profile `p` for
`uid` caches `p` under `uid` and returns it, so an immediately following
read with the remote store unreachable returns the same `p`; a failed
remote call, or a successful one returning `null`, returns the cached
profile (or `null`) and leaves the store unchanged. -/
theorem profile_read_refreshes_cache (uid : String) (p : UserProfile) (s : Store)
    (h : p.uid = uid) :
    (apiGetStoredProfileS uid (ProfileRemote.ok (some p)) s).1 = some p ∧
    lookupProfile ((apiGetStoredProfileS uid (ProfileRemote.ok (some p)) s).2).profiles uid =
      some p ∧
    (apiGetStoredProfileS uid ProfileRemote.err
      ((apiGetStoredProfileS uid (ProfileRemote.ok (some p)) s).2)).1 = some p ∧
    (∀ s2 : Store, apiGetStoredProfileS uid ProfileRemote.err s2 =
      (lookupProfile s2.profiles uid, s2)) ∧
    (∀ s2 : Store, apiGetStoredProfileS uid (ProfileRemote.ok none) s2 =
      (lookupProfile s2.profiles uid, s2)) := by
  have hcache : lookupProfile (saveLocalProfile s.profiles p) uid = some p := by
    rw [← h]
    exact lookupProfile_saveLocalProfile s.profiles p
  exact ⟨rfl, hcache, hcache, fun s2 => rfl, fun s2 => rfl⟩

/-- C9 witness: the theorem at `uid = "u1"` with `profileU1` and the
sample store. -/
theorem profile_read_refreshes_cache_witness :
    (apiGetStoredProfileS "u1" (ProfileRemote.ok (some profileU1)) sampleStore).1 =
      some profileU1 ∧
    (apiGetStoredProfileS "u1" ProfileRemote.err
      ((apiGetStoredProfileS "u1" (ProfileRemote.ok (some profileU1)) sampleStore).2)).1 =
      some profileU1 := by
  obtain ⟨h1, -, h3, -, -⟩ :=
    profile_read_refreshes_cache "u1" profileU1 sampleStore (by decide)
  exact ⟨h1, h3⟩

/-- C4 counterexample: the claim says every aggregation call invokes both
external fetchers.  Concretely, when the Adzuna adapter succeeds with one
job, the SerpApi adapter is not invoked (`fetchExternalJobs` guards it
behind `jobs.length === 0`), and a SerpApi result would not reach the
output: with Adzuna returning `[jobR1remote]` and SerpApi `[jobL1]`, the
external fetch returns `[jobR1remote]` alone. -/
theorem aggregation_skips_serp_counterexample :
    serpFallbackInvoked (AdapterResult.payload true (some [jobR1remote])) = false ∧
    fetchExternalJobs (AdapterResult.payload true (some [jobR1remote]))
      (AdapterResult.payload true (some [jobL1])) id = [jobR1remote] := by
  exact ⟨rfl, rfl⟩

/-- C4 amended.  The aggregator resolves the local-origin combined read
and the external fetch independently, but within the external fetch
Adzuna (Adapter B) is primary and SerpApi (Adapter A) is invoked only
when the Adzuna attempt contributes no jobs; each adapter failure
contributes an empty list rather than an exception.  In particular, when
Adzuna fails with a network error and SerpApi returns 2 jobs, the
aggregated result is (a permutation of the external part of) exactly the
local-origin jobs followed by those 2 jobs, with external count 2. -/
theorem aggregation_fallback_independent (remote : Option (List Job))
    (localJobs : List Job) (e1 e2 : Job) (shuffle : List Job → List Job)
    (hs : ∀ l, (shuffle l).Perm l) :
    (fetchJobsAndApps remote localJobs AdapterResult.netErr
      (AdapterResult.payload true (some [e1, e2])) shuffle).Perm
      (apiGetStoredJobs remote localJobs ++ [e1, e2]) ∧
    (fetchExternalJobs AdapterResult.netErr
      (AdapterResult.payload true (some [e1, e2])) shuffle).length = 2 ∧
    serpFallbackInvoked AdapterResult.netErr = true ∧
    serpFallbackInvoked AdapterResult.httpErr = true ∧
    serpFallbackInvoked (AdapterResult.payload true (some [])) = true ∧
    adapterContribution AdapterResult.netErr = [] ∧
    adapterContribution AdapterResult.httpErr = [] ∧
    (∀ js, adapterContribution (AdapterResult.payload false js) = []) ∧
    (∀ adz serp, fetchJobsAndApps remote localJobs adz serp shuffle =
      apiGetStoredJobs remote localJobs ++ fetchExternalJobs adz serp shuffle) := by
  have hext : fetchExternalJobs AdapterResult.netErr
      (AdapterResult.payload true (some [e1, e2])) shuffle = shuffle [e1, e2] := rfl
  refine ⟨?_, ?_, rfl, rfl, rfl, rfl, rfl, fun js => rfl, fun adz serp => rfl⟩
  · show (apiGetStoredJobs remote localJobs ++ shuffle [e1, e2]).Perm
      (apiGetStoredJobs remote localJobs ++ [e1, e2])
    exact List.Perm.append_left _ (hs [e1, e2])
  · rw [hext, (hs [e1, e2]).length_eq]
    rfl

/-- C4 amended witness: the theorem at the identity shuffle with
concrete jobs and a failed remote store. -/
theorem aggregation_fallback_independent_witness :
    (fetchJobsAndApps none [jobL1] AdapterResult.netErr
      (AdapterResult.payload true (some [jobR1remote, jobR1local])) id).Perm
      (apiGetStoredJobs none [jobL1] ++ [jobR1remote, jobR1local]) ∧
    (fetchExternalJobs AdapterResult.netErr
      (AdapterResult.payload true (some [jobR1remote, jobR1local])) id).length = 2 := by
  obtain ⟨h1, h2, -⟩ :=
    aggregation_fallback_independent none [jobL1] jobR1remote jobR1local id
      (fun l => List.Perm.refl l)
  exact ⟨h1, h2⟩

/-- C5 counterexample: the claim says the local-cache read returns a list
whatever string is stored.  Concretely, the stored string "0" is
well-formed JSON, `JSON.parse` succeeds with the number 0, and both
`getLocalJobs` and `getLocalApplications` return that number unchecked —
not a list. -/
theorem getLocal_read_nonlist_counterexample :
    jsonParse "0" = some (Json.num "0") ∧
    getLocalJobsRaw (some "0") = Json.num "0" ∧
    (getLocalJobsRaw (some "0")).isArr = false ∧
    (getLocalApplicationsRaw (some "0")).isArr = false := by
  exact ⟨rfl, rfl, rfl, rfl⟩

/-- C5 amended.  The local-cache reads never throw (they are total, with
every parse failure caught): when the stored data is missing, the empty
string, or malformed JSON, they return the empty list; a string that
parses as well-formed JSON is returned as-is — a list exactly when the
parsed value is an array. -/
theorem getLocal_read_empty_on_bad_data (stored : Option String) :
    (stored = none →
      getLocalJobsRaw stored = Json.arr [] ∧
      getLocalApplicationsRaw stored = Json.arr []) ∧
    (stored = some "" →
      getLocalJobsRaw stored = Json.arr [] ∧
      getLocalApplicationsRaw stored = Json.arr []) ∧
    (∀ s, stored = some s → s ≠ "" → jsonParse s = none →
      getLocalJobsRaw stored = Json.arr [] ∧
      getLocalApplicationsRaw stored = Json.arr []) ∧
    (∀ s v, stored = some s → s ≠ "" → jsonParse s = some v →
      getLocalJobsRaw stored = v ∧ getLocalApplicationsRaw stored = v) := by
  refine ⟨?_, ?_, ?_, ?_⟩
  · rintro rfl
    exact ⟨rfl, rfl⟩
  · rintro rfl
    exact ⟨rfl, rfl⟩
  · rintro s rfl hne hparse
    constructor
    · show (match jsonParse (if s = "" then "[]" else s) with
        | some v => v
        | none => Json.arr []) = Json.arr []
      rw [if_neg hne, hparse]
    · show (match jsonParse (if s = "" then "[]" else s) with
        | some v => v
        | none => Json.arr []) = Json.arr []
      rw [if_neg hne, hparse]
  · rintro s v rfl hne hparse
    constructor
    · show (match jsonParse (if s = "" then "[]" else s) with
        | some v => v
        | none => Json.arr []) = v
      rw [if_neg hne, hparse]
    · show (match jsonParse (if s = "" then "[]" else s) with
        | some v => v
        | none => Json.arr []) = v
      rw [if_neg hne, hparse]

/-- C5 amended witness: the theorem at the malformed stored string
"oops" (parse fails, empty list returned) and at the missing key. -/
theorem getLocal_read_empty_on_bad_data_witness :
    getLocalJobsRaw (some "oops") = Json.arr [] ∧
    getLocalApplicationsRaw none = Json.arr [] := by
  refine ⟨((getLocal_read_empty_on_bad_data (some "oops")).2.2.1 "oops" rfl
    (by decide) rfl).1, ((getLocal_read_empty_on_bad_data none).1 rfl).2⟩

/-- Helper: the head of a list as its 0th optional element. -/
theorem head?_eq_get0 {α : Type} (l : List α) : l.head? = l[0]? := by
  cases l <;> simp

/-- Helper: the pagination loop issues at most `budget` requests. -/
theorem searchLoop_sent_le (f : Nat → SerpPage) :
    ∀ (b i : Nat) (t : Option String), (searchLoop f i b t).2.length ≤ b := by
  intro b
  induction b with
  | zero => intro i t; exact Nat.le_refl 0
  | succ b ih =>
    intro i t
    rcases hfi : f i with _ | ⟨js, next⟩
    · simp [searchLoop, hfi]
    · cases next with
      | none => simp [searchLoop, hfi]
      | some tk =>
        have h := ih (i + 1) (some tk)
        simp only [searchLoop, hfi, List.length_cons]
        omega

/-- Helper: when at least one request is budgeted, the first issued
request carries the incoming continuation token. -/
theorem searchLoop_sent_head (f : Nat → SerpPage) (b i : Nat) (t : Option String)
    (hb : 1 ≤ b) : (searchLoop f i b t).2.head? = some t := by
  cases b with
  | zero => exact absurd hb (by omega)
  | succ b =>
    rcases hfi : f i with _ | ⟨js, next⟩
    · simp [searchLoop, hfi]
    · cases next with
      | none => simp [searchLoop, hfi]
      | some tk => simp [searchLoop, hfi]

/-- Helper: every request after the first follows a server-supplied
continuation token: if a `(k+1)`-st request was issued, the `k`-th
response was a success carrying the very token the `(k+1)`-st request
was sent with. -/
theorem searchLoop_chain (f : Nat → SerpPage) :
    ∀ (b i : Nat) (t : Option String) (k : Nat),
      k + 1 < (searchLoop f i b t).2.length →
      ∃ js tk, f (i + k) = SerpPage.ok js (some tk) ∧
        (searchLoop f i b t).2[k + 1]? = some (some tk) := by
  intro b
  induction b with
  | zero =>
    intro i t k hk
    simp [searchLoop] at hk
  | succ b ih =>
    intro i t k hk
    rcases hfi : f i with _ | ⟨js, next⟩
    · simp [searchLoop, hfi] at hk
    · cases next with
      | none => simp [searchLoop, hfi] at hk
      | some tk0 =>
        simp only [searchLoop, hfi, List.length_cons] at hk
        cases k with
        | zero =>
          have hlen : 1 ≤ (searchLoop f (i + 1) b (some tk0)).2.length := by omega
          have hb : 1 ≤ b := le_trans hlen (searchLoop_sent_le f b (i + 1) (some tk0))
          refine ⟨js, tk0, by simpa using hfi, ?_⟩
          simp only [searchLoop, hfi, List.getElem?_cons_succ]
          rw [← head?_eq_get0]
          exact searchLoop_sent_head f b (i + 1) (some tk0) hb
        | succ k =>
          have hk2 : k + 1 < (searchLoop f (i + 1) b (some tk0)).2.length := by omega
          obtain ⟨js2, tk2, h1, h2⟩ := ih (i + 1) (some tk0) k hk2
          have harg : i + 1 + k = i + (k + 1) := by omega
          rw [harg] at h1
          refine ⟨js2, tk2, h1, ?_⟩
          simp only [searchLoop, hfi, List.getElem?_cons_succ]
          exact h2

/-- Helper: the jobs collected by the loop are exactly the concatenation,
in order, of the jobs of the responses to the issued requests — a failed
final response contributes nothing but discards nothing. -/
theorem searchLoop_jobs (f : Nat → SerpPage) :
    ∀ (b i : Nat) (t : Option String),
      (searchLoop f i b t).1 =
        ((List.range (searchLoop f i b t).2.length).map
          (fun k => serpPageJobs (f (i + k)))).join := by
  intro b
  induction b with
  | zero => intro i t; simp [searchLoop]
  | succ b ih =>
    intro i t
    have hr1 : List.range 1 = [0] := rfl
    rcases hfi : f i with _ | ⟨js, next⟩
    · simp [searchLoop, hfi, serpPageJobs, hr1]
    · cases next with
      | none => simp [searchLoop, hfi, serpPageJobs, hr1]
      | some tk =>
        have hIH := ih (i + 1) (some tk)
        simp only [searchLoop, hfi, List.length_cons, List.range_succ_eq_map,
          List.map_cons, List.join, List.map_map, Nat.add_zero, serpPageJobs]
        refine congrArg (js ++ ·) ?_
        rw [hIH]
        refine congrArg List.join ?_
        refine List.map_congr_left ?_
        intro a _
        have harg : i + 1 + a = i + (a + 1) := by omega
        simp only [Function.comp, harg]
        rfl

/-- C6.  For a page budget `p ≥ 1`, the `/api/jobs/search` handler issues
at most `min p 3` sequential provider requests; the first request carries
no continuation token and every later request carries exactly the token
of the preceding successful response (so the loop stops when the token is
absent, on a non-success response, or at the cap); the collected jobs are
the concatenation of the jobs of all answered pages — a non-success
response ends the loop but keeps everything already collected — and the
handler's returned list maps every collected job (same length, in
order). -/
theorem serp_pagination_bounded (provider : Nat → SerpPage) (p : Int) (hp : 1 ≤ p)
    (idGen : Nat → String) (loc : String) :
    (serpSearchRaw provider (some p)).2.length ≤ (min p 3).toNat ∧
    (serpSearchRaw provider (some p)).2.length ≤ 3 ∧
    (serpSearchRaw provider (some p)).2.head? = some none ∧
    (∀ k, k + 1 < (serpSearchRaw provider (some p)).2.length →
      ∃ js tk, provider k = SerpPage.ok js (some tk) ∧
        (serpSearchRaw provider (some p)).2[k + 1]? = some (some tk)) ∧
    (serpSearchRaw provider (some p)).1 =
      ((List.range (serpSearchRaw provider (some p)).2.length).map
        (fun k => serpPageJobs (provider k))).join ∧
    (serpHandlerJobs idGen loc provider (some p)).length =
      (serpSearchRaw provider (some p)).1.length := by
  have hp0 : ¬(p = 0) := by omega
  have hemp : effectiveMaxPages (some p) = min p 3 := by
    simp [effectiveMaxPages, hp0]
  have hraw : serpSearchRaw provider (some p) =
      searchLoop provider 0 (min p 3).toNat none := by
    unfold serpSearchRaw
    rw [hemp]
  refine ⟨?_, ?_, ?_, ?_, ?_, ?_⟩
  · rw [hraw]
    exact searchLoop_sent_le provider ((min p 3).toNat) 0 none
  · rw [hraw]
    have h1 := searchLoop_sent_le provider ((min p 3).toNat) 0 none
    have h2 : (min p 3).toNat ≤ 3 := by omega
    omega
  · rw [hraw]
    refine searchLoop_sent_head provider ((min p 3).toNat) 0 none ?_
    omega
  · intro k hk
    rw [hraw] at hk ⊢
    obtain ⟨js, tk, h1, h2⟩ :=
      searchLoop_chain provider ((min p 3).toNat) 0 none k hk
    rw [Nat.zero_add] at h1
    exact ⟨js, tk, h1, h2⟩
  · rw [hraw]
    have h := searchLoop_jobs provider ((min p 3).toNat) 0 none
    simpa [Nat.zero_add] using h
  · simp [serpHandlerJobs, List.length_map, List.enum_length]

/-- C6 witness: the theorem at a provider whose first response succeeds
with one job and a token and whose second response is a non-success, with
page budget 3: two requests are issued, within the cap, the first without
a token, and the job from the successful first page is kept. -/
theorem serp_pagination_bounded_witness :
    (serpSearchRaw sampleProvider (some 3)).2.length ≤ (min (3 : Int) 3).toNat ∧
    (serpSearchRaw sampleProvider (some 3)).2.head? = some none ∧
    (serpSearchRaw sampleProvider (some 3)).1 = [serpRawPay] := by
  obtain ⟨h1, -, h3, -, -, -⟩ :=
    serp_pagination_bounded sampleProvider 3 (by decide) (fun _ => "id") "India"
  exact ⟨h1, h3, by decide⟩

/-- C7.  `extractSalary` prefers a (truthy) explicit provider salary
field; otherwise it returns the first substring of the description
matching the currency-amount pattern, and `"Not specified"` when there is
no match; on the description "Pay: Rs. 50,000 - Rs. 70,000 per month"
with no explicit salary it returns exactly
"Rs. 50,000 - Rs. 70,000 per month". -/
theorem extract_salary_spec (s : String) (descr : Option String) (h : s ≠ "") :
    extractSalary (some s) descr = s ∧
    (∀ d, findSalary d.data = none → extractSalary none (some d) = "Not specified") ∧
    (∀ d m, findSalary d.data = some m → extractSalary none (some d) = m) ∧
    extractSalary none (some "Pay: Rs. 50,000 - Rs. 70,000 per month") =
      "Rs. 50,000 - Rs. 70,000 per month" ∧
    extractSalary none none = "Not specified" := by
  have hbeq : (s == "") = false := beq_eq_false_iff_ne.mpr h
  refine ⟨?_, ?_, ?_, rfl, rfl⟩
  · simp [extractSalary, truthyStr, hbeq]
  · intro d hnone
    simp [extractSalary, truthyStr, hnone]
  · intro d m hsome
    simp [extractSalary, truthyStr, hsome]

/-- C7 witness: the theorem at the explicit salary "₹99" and at the
claim's concrete description. -/
theorem extract_salary_spec_witness :
    extractSalary (some "₹99") none = "₹99" ∧
    extractSalary none (some "Pay: Rs. 50,000 - Rs. 70,000 per month") =
      "Rs. 50,000 - Rs. 70,000 per month" := by
  obtain ⟨h1, -, -, h4, -⟩ := extract_salary_spec "₹99" none (by decide)
  exact ⟨h1, h4⟩

/-- C10.  The Adzuna salary mapping produces the two-sided formatted
range only when both `salary_min` and `salary_max` are truthy; a falsy
(absent or zero) `salary_min` yields "Not specified" even when
`salary_max` is positive; a truthy `salary_min` with falsy `salary_max`
yields the single-value form "₹min+". -/
theorem adzuna_salary_truthiness (mn mx : Option Nat) :
    (truthyNum mn = false → adzunaSalary mn mx = "Not specified") ∧
    (truthyNum mn = true → truthyNum mx = false →
      adzunaSalary mn mx = "₹" ++ toLocaleStringEnIN (mn.getD 0) ++ "+") ∧
    (truthyNum mn = true → truthyNum mx = true →
      adzunaSalary mn mx =
        "₹" ++ toLocaleStringEnIN (mn.getD 0) ++ " - ₹" ++ toLocaleStringEnIN (mx.getD 0)) ∧
    adzunaSalary none (some 70000) = "Not specified" ∧
    adzunaSalary (some 0) (some 70000) = "Not specified" ∧
    adzunaSalary (some 50000) none = "₹50,000+" ∧
    adzunaSalary (some 50000) (some 0) = "₹50,000+" := by
  refine ⟨?_, ?_, ?_, rfl, rfl, rfl, rfl⟩
  · intro hmn
    simp [adzunaSalary, hmn]
  · intro hmn hmx
    simp [adzunaSalary, hmn, hmx]
  · intro hmn hmx
    simp [adzunaSalary, hmn, hmx]

/-- C10 witness: the theorem at concrete salary fields — both truthy
(range form) and an absent minimum with positive maximum
("Not specified"). -/
theorem adzuna_salary_truthiness_witness :
    adzunaSalary (some 50000) (some 70000) =
      "₹" ++ toLocaleStringEnIN 50000 ++ " - ₹" ++ toLocaleStringEnIN 70000 ∧
    adzunaSalary none (some 1) = "Not specified" := by
  refine ⟨?_, ?_⟩
  · exact (adzuna_salary_truthiness (some 50000) (some 70000)).2.2.1 rfl rfl
  · exact (adzuna_salary_truthiness none (some 1)).1 rfl

end Hirely
